import Mathlib

/-
  Verification development for the StressLab repository
  (trading-strategy builder / backtester / streaming simulation player).

  Part 1 models the frontend streaming client
  (frontend/src/lib/simulationApi.ts) and the page-level handlers
  (frontend/src/app/page.tsx).
  Part 2 models the data shapes of the strategy configuration
  (Rule from the api client, Trade records).
  Part 3 models the simulation engine (IndicatorEngine consumer,
  RuleEvaluator, PortfolioAccountant, SimulationDriver); that engine is
  a backend component whose code is not in the frontend tree, so it is
  modelled from the written specification, as flagged on each definition.
-/

namespace StressLab

/-! ### Wire data shapes, from frontend/src/lib/simulationApi.ts -/

/-- Trade record embedded in a streamed SimulationState
(simulationApi.ts lines 29 to 34): fields date, type, price, shares. -/
structure SimTrade where
  date : String
  type : String
  price : ℚ
  shares : ℚ
deriving DecidableEq

/-- Per-day simulation snapshot on the wire (simulationApi.ts lines 15
to 37).  The source field named open is rendered opn (reserved word);
the Record of indicator values is rendered as an association list. -/
structure SimulationState where
  day : ℕ
  total_days : ℕ
  date : String
  price : ℚ
  opn : ℚ
  high : ℚ
  low : ℚ
  volume : ℚ
  indicators : List (String × ℚ)
  signal : ℤ
  position : ℚ
  capital : ℚ
  equity : ℚ
  trade : Option SimTrade
  total_trades : ℕ
  return_pct : ℚ
deriving DecidableEq

/-- Trade entry of the final results payload (simulationApi.ts line 45):
fields date, type, price, type_label. -/
structure ResultsTrade where
  date : String
  type : String
  price : ℚ
  type_label : String
deriving DecidableEq

/-- Final results payload (simulationApi.ts lines 39 to 50). -/
structure SimulationResults where
  initial_capital : ℚ
  final_equity : ℚ
  total_return : ℚ
  return_percentage : ℚ
  total_trades : ℕ
  trades : List ResultsTrade
  equity_curve : List ℚ
  max_equity : ℚ
  min_equity : ℚ
  days_simulated : ℕ
deriving DecidableEq

/-! ### The streaming client loop, simulationApi.ts lines 55 to 117

The body of streamSimulation reads chunks, reassembles them on the
frame separator, and dispatches each line.  A line is modelled as a
Frame: lines that do not start with the data marker are `other`, a data
line whose JSON payload fails to parse is `malformed` (JSON.parse
throws, carrying the parser message), a parsed message is dispatched on
its type field, where an unrecognized type falls through the switch
(`unknown`).  The callbacks onUpdate, onComplete, onError and the
console logging of info frames are modelled as an emitted Event list. -/

inductive Frame where
  | other (raw : String)
  | malformed (emsg : String)
  | info
  | unknown
  | update (s : SimulationState)
  | complete (r : SimulationResults)
  | error (msg : String)
deriving DecidableEq

inductive Event where
  | info
  | update (s : SimulationState)
  | complete (r : SimulationResults)
  | error (msg : String)
deriving DecidableEq

/-- One pass of the dispatch loop (simulationApi.ts lines 93 to 111)
over the ordered sequence of received lines.  Returns the events
dispatched and, if a JSON.parse call threw, the pending exception
message: on a complete or error frame the function returns immediately,
so later lines are never examined. -/
def processFrames : List Frame → List Event × Option String
  | [] => ([], none)
  | Frame.other _ :: fs => processFrames fs
  | Frame.unknown :: fs => processFrames fs
  | Frame.malformed emsg :: _ => ([], some emsg)
  | Frame.info :: fs =>
      let pr := processFrames fs
      (Event.info :: pr.1, pr.2)
  | Frame.update s :: fs =>
      let pr := processFrames fs
      (Event.update s :: pr.1, pr.2)
  | Frame.complete r :: _ => ([Event.complete r], none)
  | Frame.error m :: _ => ([Event.error m], none)

/-- Behaviour of the fetch call and of the underlying byte stream, as
experienced by streamSimulation: the fetch promise rejects (network
failure), the response is not ok (line 73), the body has no reader
(line 78), or a stream of lines arrives and then either a read call
rejects (some message) or the stream ends cleanly (none). -/
inductive StreamOutcome where
  | netError (msg : String)
  | httpError (statusText : String)
  | noBody
  | stream (frames : List Frame) (readErr : Option String)
deriving DecidableEq

def Event.isTerminal : Event → Bool
  | Event.complete _ => true
  | Event.error _ => true
  | _ => false

def hasTerminal (es : List Event) : Bool := es.any Event.isTerminal

/-- streamSimulation before its try/catch: the events dispatched so far
plus the pending exception, if one escaped.  A thrown fetch error, a
non-ok status or a missing reader raise before any dispatch; during the
loop, a terminal frame returns from inside the try, otherwise the next
read either rejects or signals done (loop break, normal return). -/
def rawStream : StreamOutcome → List Event × Option String
  | StreamOutcome.netError m => ([], some m)
  | StreamOutcome.httpError st => ([], some ("Simulation stream failed: " ++ st))
  | StreamOutcome.noBody => ([], some "Response body is not readable")
  | StreamOutcome.stream frames readErr =>
      let pr := processFrames frames
      match pr.2 with
      | some m => (pr.1, some m)
      | none => if hasTerminal pr.1 then (pr.1, none) else (pr.1, readErr)

/-- The whole of streamSimulation (lines 55 to 117): the catch block
turns any escaped exception into a single onError call, so the function
always returns normally. -/
def streamSimulation (o : StreamOutcome) : List Event :=
  match rawStream o with
  | (es, some m) => es ++ [Event.error m]
  | (es, none) => es

def countTerminals (es : List Event) : ℕ := (es.filter Event.isTerminal).length

def Event.isError : Event → Bool
  | Event.error _ => true
  | _ => false

def countErrors (es : List Event) : ℕ := (es.filter Event.isError).length

/-- True when no event at all follows a terminal event in the list. -/
def noEventAfterTerminal : List Event → Bool
  | [] => true
  | e :: es => if e.isTerminal then es.isEmpty else noEventAfterTerminal es

/-- The update payloads dispatched, in dispatch order. -/
def updatePayloads (es : List Event) : List SimulationState :=
  es.filterMap fun e => match e with
    | Event.update s => some s
    | _ => none

/-- The update payloads carried by a frame sequence, in arrival order. -/
def frameUpdates (fs : List Frame) : List SimulationState :=
  fs.filterMap fun f => match f with
    | Frame.update s => some s
    | _ => none

/-- Frame sequences containing no terminal frame and no malformed
payload: a byte stream that fails rather than finishes. -/
def cleanFrames (fs : List Frame) : Bool :=
  fs.all fun f => match f with
    | Frame.complete _ => false
    | Frame.error _ => false
    | Frame.malformed _ => false
    | _ => true

/-! ### Page-level state and handlers, frontend/src/app/page.tsx

The Home component state (lines 13 to 24) is modelled as a record; an
AbortController is identified by a number, the ref abortControllerRef
holds the id of the current controller, and the set of controllers on
which abort was called is carried as a list.  Result payloads only
matter as present or absent here, so they are carried as flags, and
the appended simulation states as a list. -/

structure PageState where
  loading : Bool
  isSimulating : Bool
  error : Option String
  abortCtrl : Option ℕ
  aborted : List ℕ
  nextId : ℕ
  backtestResults : Bool
  analysisResults : Bool
  simulationStates : List SimulationState
  simulationResults : Bool
deriving DecidableEq

/-- The synchronous prefix of handleRunBacktest (page.tsx lines 26 to
41): bail out while a run is already in flight; otherwise abort any
existing controller, install a fresh one, raise the loading flag and
clear the previous results. -/
def handleRunBacktestStart (st : PageState) : PageState :=
  if st.loading || st.isSimulating then st
  else
    { loading := true
      isSimulating := st.isSimulating
      error := none
      abortCtrl := some st.nextId
      aborted := match st.abortCtrl with
        | some c => c :: st.aborted
        | none => st.aborted
      nextId := st.nextId + 1
      backtestResults := false
      analysisResults := false
      simulationStates := []
      simulationResults := false }

/-- The onError callback passed to streamSimulation (page.tsx lines 66
to 71): two exact abort messages are filtered out, every other message
is surfaced in the error banner; the simulating flag always drops. -/
def onErrorHandler (msg : String) (st : PageState) : PageState :=
  let st1 :=
    if msg ≠ "The user aborted a request." ∧ msg ≠ "signal is aborted without reason"
    then { st with error := some ("Simulation error: " ++ msg) }
    else st
  { st1 with isSimulating := false }

/-- The two abort-induced messages filtered by the handler. -/
def abortMessages : List String :=
  ["The user aborted a request.", "signal is aborted without reason"]

/-! ### Strategy configuration shapes

Rule is declared twice in the repository, identically: in the api
client (src/unnamed/part_006 lines 4 to 12, field types String) and in
StrategyBuilder.tsx lines 5 to 13 (literal unions on type and
condition, same field set).  It is one open record: a type tag, a
condition tag, and five optional fields, all of which may be populated
at once regardless of the chosen condition. -/

structure Rule where
  type : String
  condition : String
  indicator : Option String := none
  operator : Option String := none
  value : Option ℚ := none
  ind1 : Option String := none
  ind2 : Option String := none
deriving DecidableEq

/-- Modelled from the spec: the closed tagged-variant discipline the
specification states for Rule (action in buy or sell; Threshold with
indicator, one of the five comparison operators and a value, and no
crossover fields; Crossover and Crossunder with ind1 and ind2 only). -/
def ruleClosedVariant (r : Rule) : Bool :=
  (r.type == "buy" || r.type == "sell") &&
  ((r.condition == "threshold" && r.indicator.isSome &&
      (match r.operator with
        | some op => ["<", "<=", ">", ">=", "=="].contains op
        | none => false) &&
      r.value.isSome && r.ind1.isNone && r.ind2.isNone) ||
   (r.condition == "crossover" && r.ind1.isSome && r.ind2.isSome &&
      r.indicator.isNone && r.operator.isNone && r.value.isNone) ||
   (r.condition == "crossunder" && r.ind1.isSome && r.ind2.isSome &&
      r.indicator.isNone && r.operator.isNone && r.value.isNone))

/-- The initial rules of StrategyBuilder.tsx (lines 27 to 30). -/
def defaultRules : List Rule :=
  [{ type := "buy", condition := "crossover",
     ind1 := some "MACD_12_26", ind2 := some "MACD_Signal_9" },
   { type := "sell", condition := "crossunder",
     ind1 := some "MACD_12_26", ind2 := some "MACD_Signal_9" }]

/-- The rule appended by the addRule handler (StrategyBuilder.tsx line
41). -/
def addRuleDefault (t : String) : Rule :=
  { type := t, condition := "threshold", indicator := some "RSI",
    operator := some "<", value := some 30 }

/-- The rule produced when the user switches the condition select of
the default buy rule to threshold: the onChange handler
(StrategyBuilder.tsx lines 138 to 142) reassigns only the condition
field, so the crossover fields ind1 and ind2 survive on a rule whose
condition is now threshold. -/
def mixedRule : Rule :=
  { type := "buy", condition := "threshold",
    ind1 := some "MACD_12_26", ind2 := some "MACD_Signal_9" }

/-! ### Trade record shapes, for the field-set comparison

The field lists transcribed from the three trade-record declarations
in the source, and the field list the specification states. -/

/-- Batch-API trade record (frontend/src/lib/api.ts lines 15 to 19). -/
structure Trade where
  date : String
  type : String
  price : ℚ
deriving DecidableEq

/-- Field names of the batch-API Trade declaration (api.ts 15 to 19). -/
def batchTradeFields : List String := ["date", "type", "price"]

/-- Field names of the trade object inside a streamed SimulationState
(simulationApi.ts lines 29 to 34). -/
def simTradeFields : List String := ["date", "type", "price", "shares"]

/-- Field names of a trade entry of SimulationResults
(simulationApi.ts line 45). -/
def resultsTradeFields : List String := ["date", "type", "price", "type_label"]

/-- The field set the specification claims for every Trade record. -/
def claimedTradeFields : List String := ["date", "action", "price", "shares"]

/-! ### The simulation engine

The engine itself (backend RuleEvaluator, PortfolioAccountant,
SimulationDriver) is backend code that is not in the frontend source
tree; every definition below is modelled from the specification, as
noted on each.  Indicator series are consumed as data, matching the
specified data flow in which the IndicatorEngine hands the driver one
value-per-day series per configured indicator, undefined during
warm-up. -/

/-- Modelled from the spec: one OHLCV bar (open rendered opn). -/
structure Bar where
  date : String
  opn : ℚ
  high : ℚ
  low : ℚ
  close : ℚ
  volume : ℚ
deriving DecidableEq

/-- Indicator snapshots: the value of the named indicator series at a
day index, none while the series is still undefined (warm-up). -/
def Ind : Type := ℕ → String → Option ℚ

inductive Signal where
  | buy
  | sell
  | hold
deriving DecidableEq

/-- Modelled from the spec: threshold comparison operators; the five
listed operators compare the indicator value against the constant, any
other operator string triggers nothing. -/
def opApply (op : String) (x v : ℚ) : Bool :=
  if op = "<" then decide (x < v)
  else if op = "<=" then decide (x ≤ v)
  else if op = ">" then decide (v < x)
  else if op = ">=" then decide (v ≤ x)
  else if op = "==" then decide (x = v)
  else false

/-- Modelled from the spec: rule satisfaction (RuleEvaluator, spec 4.2)
over the repository Rule record.  Threshold needs a defined indicator
value and applies the operator; Crossover fires when ind1 was at or
below ind2 on the previous day and is strictly above today, both days
defined and the day at least 1; Crossunder is the mirror; undefined
values and missing optional fields never satisfy a rule. -/
def ruleSatisfied (ind : Ind) (t : ℕ) (r : Rule) : Bool :=
  if r.condition = "threshold" then
    match r.indicator, r.operator, r.value with
    | some iname, some op, some v =>
        match ind t iname with
        | some x => opApply op x v
        | none => false
    | _, _, _ => false
  else if r.condition = "crossover" then
    match r.ind1, r.ind2 with
    | some a, some b =>
        if t = 0 then false
        else
          match ind (t - 1) a, ind (t - 1) b, ind t a, ind t b with
          | some a0, some b0, some a1, some b1 =>
              decide (a0 ≤ b0) && decide (b1 < a1)
          | _, _, _, _ => false
    | _, _ => false
  else if r.condition = "crossunder" then
    match r.ind1, r.ind2 with
    | some a, some b =>
        if t = 0 then false
        else
          match ind (t - 1) a, ind (t - 1) b, ind t a, ind t b with
          | some a0, some b0, some a1, some b1 =>
              decide (b0 ≤ a0) && decide (a1 < b1)
          | _, _, _, _ => false
    | _, _ => false
  else false

/-- Modelled from the spec: the decision policy of the RuleEvaluator.
Rules are scanned in configured order, the satisfied SELL rules and the
satisfied BUY rules are collected; any satisfied SELL rule gives SELL,
else any satisfied BUY rule gives BUY, else HOLD. -/
def evalSignal (rules : List Rule) (ind : Ind) (t : ℕ) : Signal :=
  let satisfied := rules.filter fun r => ruleSatisfied ind t r
  let sells := satisfied.filter fun r => r.type == "sell"
  let buys := satisfied.filter fun r => r.type == "buy"
  if sells.isEmpty then
    if buys.isEmpty then Signal.hold else Signal.buy
  else Signal.sell

/-- Run configuration: names of the configured indicator series, the
indicator snapshots, and the ordered rule list. -/
structure RunCfg where
  names : List String
  ind : Ind
  rules : List Rule

/-- Modelled from the spec: the driver is in WARMUP at day t while any
requested indicator is still undefined there; signal is then forced
HOLD regardless of rule outcomes. -/
def warmupAt (cfg : RunCfg) (t : ℕ) : Bool :=
  cfg.names.any fun n => (cfg.ind t n).isNone

def daySignal (cfg : RunCfg) (t : ℕ) : Signal :=
  if warmupAt cfg t then Signal.hold else evalSignal cfg.rules cfg.ind t

/-- Modelled from the spec: the Position plus capital state mutated by
the PortfolioAccountant, once per day in bar order. -/
structure PState where
  capital : ℚ
  shares : ℚ
  entryPrice : ℚ
deriving DecidableEq

def initP (cap0 : ℚ) : PState := { capital := cap0, shares := 0, entryPrice := 0 }

/-- Modelled from the spec: the PortfolioAccountant (spec 4.3).  BUY
while flat converts all capital into shares at the close and records a
trade; BUY while holding is a no-op.  SELL while holding liquidates all
shares at the close and records a trade; SELL while flat is a no-op.
HOLD never mutates capital or position.  Fills are exact, fee-free, at
the daily close. -/
def applySignal (bar : Bar) (sig : Signal) (p : PState) : PState × Option SimTrade :=
  match sig with
  | Signal.buy =>
      if p.shares = 0 then
        ({ capital := 0, shares := p.capital / bar.close, entryPrice := bar.close },
         some { date := bar.date, type := "buy", price := bar.close,
                shares := p.capital / bar.close })
      else (p, none)
  | Signal.sell =>
      if 0 < p.shares then
        ({ capital := p.shares * bar.close, shares := 0, entryPrice := 0 },
         some { date := bar.date, type := "sell", price := bar.close,
                shares := p.shares })
      else (p, none)
  | Signal.hold => (p, none)

/-- Modelled from the spec: the per-day SimulationState snapshot that
the driver records and the streaming mode emits. -/
structure SimState where
  day : ℕ
  date : String
  close : ℚ
  signal : Signal
  shares : ℚ
  capital : ℚ
  equity : ℚ
  trade : Option SimTrade
  totalTrades : ℕ
  returnPct : ℚ
deriving DecidableEq

/-- Modelled from the spec: the final SimulationResult summary. -/
structure SimResult where
  initialCapital : ℚ
  finalEquity : ℚ
  trades : List SimTrade
  equityCurve : List ℚ
  daysSimulated : ℕ
deriving DecidableEq

/-- Modelled from the spec: the shared per-day core of both driver
modes.  The signal for the day is evaluated (HOLD during warm-up), the
accountant applies it, and equity is recomputed as capital plus
position value at the close. -/
def stepDay (cfg : RunCfg) (cap0 : ℚ) (t : ℕ) (bar : Bar) (p : PState)
    (tc : ℕ) : PState × SimState :=
  let sig := daySignal cfg t
  let pr := applySignal bar sig p
  let eq := pr.1.capital + pr.1.shares * bar.close
  (pr.1,
   { day := t, date := bar.date, close := bar.close, signal := sig,
     shares := pr.1.shares, capital := pr.1.capital, equity := eq,
     trade := pr.2,
     totalTrades := tc + (if pr.2.isSome then 1 else 0),
     returnPct := (eq - cap0) / cap0 * 100 })

/-- Modelled from the spec: batch mode iterates all bars synchronously,
collecting the per-day states. -/
def batchAux (cfg : RunCfg) (cap0 : ℚ) :
    List Bar → ℕ → PState → ℕ → List SimState
  | [], _, _, _ => []
  | bar :: rest, t, p, tc =>
      let pr := stepDay cfg cap0 t bar p tc
      pr.2 :: batchAux cfg cap0 rest (t + 1) pr.1 pr.2.totalTrades

/-- Last element of a rational list, with a default. -/
def lastD : List ℚ → ℚ → ℚ
  | [], d => d
  | x :: xs, _ => lastD xs x

/-- Head of a rational list, with a default. -/
def headD : List ℚ → ℚ → ℚ
  | [], d => d
  | x :: _, _ => x

/-- Modelled from the spec: the batch run, returning the final summary
assembled from the state list together with the full state list. -/
def runBatch (cfg : RunCfg) (cap0 : ℚ) (bars : List Bar) :
    SimResult × List SimState :=
  let states := batchAux cfg cap0 bars 0 (initP cap0) 0
  ({ initialCapital := cap0,
     finalEquity := lastD (states.map SimState.equity) cap0,
     trades := states.filterMap SimState.trade,
     equityCurve := states.map SimState.equity,
     daysSimulated := states.length }, states)

/-- Events of the streaming driver mode. -/
inductive SimEvent where
  | update (s : SimState)
  | complete (r : SimResult)
deriving DecidableEq

/-- Cancellation flag: the run is cancelled from day k onward. -/
def isCancelled (cancelAt : Option ℕ) (t : ℕ) : Bool :=
  match cancelAt with
  | some k => decide (k ≤ t)
  | none => false

def consTrade (tr : Option SimTrade) (acc : List SimTrade) : List SimTrade :=
  match tr with
  | some x => x :: acc
  | none => acc

/-- Modelled from the spec: streaming mode.  Cancellation is checked at
each bar boundary; once cancelled the driver stops emitting at once, so
neither further updates nor a complete event appear.  Otherwise each
bar yields one update and, after the last bar, exactly one complete
event carrying the summary assembled from the accumulators. -/
def streamAux (cfg : RunCfg) (cap0 : ℚ) (cancelAt : Option ℕ) :
    List Bar → ℕ → PState → ℕ → List SimTrade → List ℚ → List SimEvent
  | [], t, _, _, trAcc, eqAcc =>
      if isCancelled cancelAt t then []
      else
        [SimEvent.complete
          { initialCapital := cap0, finalEquity := headD eqAcc cap0,
            trades := trAcc.reverse, equityCurve := eqAcc.reverse,
            daysSimulated := t }]
  | bar :: rest, t, p, tc, trAcc, eqAcc =>
      if isCancelled cancelAt t then []
      else
        let pr := stepDay cfg cap0 t bar p tc
        SimEvent.update pr.2 ::
          streamAux cfg cap0 cancelAt rest (t + 1) pr.1 pr.2.totalTrades
            (consTrade pr.2.trade trAcc) (pr.2.equity :: eqAcc)

/-- Modelled from the spec: a streaming run from the initial state. -/
def streamRun (cfg : RunCfg) (cap0 : ℚ) (cancelAt : Option ℕ)
    (bars : List Bar) : List SimEvent :=
  streamAux cfg cap0 cancelAt bars 0 (initP cap0) 0 [] []

/-- The summary carried by the first complete event, if any. -/
def finalResult (evs : List SimEvent) : Option SimResult :=
  (evs.filterMap fun e => match e with
    | SimEvent.complete r => some r
    | _ => none).head?

/-! ### Concrete inputs used by the witness theorems -/

def wCfg : RunCfg := { names := [], ind := fun _ _ => none, rules := [] }

def wBar : Bar :=
  { date := "d0", opn := 100, high := 101, low := 99, close := 100, volume := 0 }

def wBars1 : List Bar := [wBar]

def wBars60 : List Bar := List.replicate 60 wBar

def wInd : Ind := fun _ n => if n = "RSI" then some 20 else none

def wRules1 : List Rule := [addRuleDefault "buy"]

def wRules2 : List Rule := [addRuleDefault "buy", addRuleDefault "sell"]

def wPage : PageState :=
  { loading := false, isSimulating := false, error := none,
    abortCtrl := some 0, aborted := [], nextId := 1,
    backtestResults := false, analysisResults := false,
    simulationStates := [], simulationResults := false }

def wPageBusy : PageState := { wPage with loading := true }

def wFillTrade : SimTrade :=
  { date := "d0", type := "buy", price := 100, shares := 100 }

/-! ## Lemmas about the streaming client loop -/

lemma streamSimulation_split (o : StreamOutcome) :
    streamSimulation o =
      (rawStream o).1 ++ ((rawStream o).2.map Event.error).toList := by
  unfold streamSimulation
  rcases hr : rawStream o with ⟨es, ex⟩
  cases ex <;> simp

lemma processFrames_shape (fs : List Frame) :
    countTerminals (processFrames fs).1 ≤ 1 ∧
    noEventAfterTerminal (processFrames fs).1 = true ∧
    ((processFrames fs).2 ≠ none → hasTerminal (processFrames fs).1 = false) := by
  induction fs with
  | nil => simp [processFrames, countTerminals, noEventAfterTerminal, hasTerminal]
  | cons f fs ih =>
      cases f <;>
        simp_all [processFrames, countTerminals, noEventAfterTerminal,
          hasTerminal, Event.isTerminal]

lemma processFrames_update_order (fs : List Frame) :
    ∃ rest, updatePayloads (processFrames fs).1 ++ rest = frameUpdates fs := by
  induction fs with
  | nil => exact ⟨[], by simp [processFrames, updatePayloads, frameUpdates]⟩
  | cons f fs ih =>
      obtain ⟨rest, hrest⟩ := ih
      cases f with
      | other raw =>
          exact ⟨rest, by simpa [processFrames, updatePayloads, frameUpdates] using hrest⟩
      | unknown =>
          exact ⟨rest, by simpa [processFrames, updatePayloads, frameUpdates] using hrest⟩
      | info =>
          exact ⟨rest, by simpa [processFrames, updatePayloads, frameUpdates] using hrest⟩
      | update s =>
          refine ⟨rest, ?_⟩
          simpa [processFrames, updatePayloads, frameUpdates] using hrest
      | malformed emsg =>
          exact ⟨frameUpdates fs, by simp [processFrames, updatePayloads, frameUpdates]⟩
      | complete r =>
          exact ⟨frameUpdates fs, by simp [processFrames, updatePayloads, frameUpdates]⟩
      | error m =>
          exact ⟨frameUpdates fs, by simp [processFrames, updatePayloads, frameUpdates]⟩

lemma processFrames_clean (fs : List Frame) (h : cleanFrames fs = true) :
    countErrors (processFrames fs).1 = 0 ∧
    hasTerminal (processFrames fs).1 = false ∧
    (processFrames fs).2 = none := by
  induction fs with
  | nil => simp [processFrames, countErrors, hasTerminal]
  | cons f fs ih =>
      cases f <;>
        simp_all [processFrames, countErrors, hasTerminal, cleanFrames,
          Event.isError, Event.isTerminal]

lemma processFrames_malformed_at (pre post : List Frame) (emsg : String)
    (h : cleanFrames pre = true) :
    processFrames (pre ++ Frame.malformed emsg :: post) =
      ((processFrames pre).1, some emsg) := by
  induction pre with
  | nil => simp [processFrames]
  | cons f pre ih =>
      cases f <;> simp_all [processFrames, cleanFrames]

lemma countTerminals_append (es es' : List Event) :
    countTerminals (es ++ es') = countTerminals es + countTerminals es' := by
  simp [countTerminals, List.filter_append]

lemma countErrors_append (es es' : List Event) :
    countErrors (es ++ es') = countErrors es + countErrors es' := by
  simp [countErrors, List.filter_append]

lemma countTerminals_of_not_hasTerminal (es : List Event)
    (h : hasTerminal es = false) : countTerminals es = 0 := by
  induction es with
  | nil => simp [countTerminals]
  | cons e es ih =>
      rw [hasTerminal, List.any_cons, Bool.or_eq_false_iff] at h
      rw [countTerminals, List.filter_cons, h.1]
      simpa [countTerminals] using ih h.2

lemma noEventAfterTerminal_append_error (es : List Event) (m : String)
    (h : hasTerminal es = false) :
    noEventAfterTerminal (es ++ [Event.error m]) = true := by
  induction es with
  | nil => simp [noEventAfterTerminal, Event.isTerminal]
  | cons e es ih =>
      rw [hasTerminal, List.any_cons, Bool.or_eq_false_iff] at h
      simp [List.cons_append, noEventAfterTerminal, h.1, ih h.2]

lemma updatePayloads_append_error (es : List Event) (m : String) :
    updatePayloads (es ++ [Event.error m]) = updatePayloads es := by
  simp [updatePayloads, List.filterMap_append]

lemma streamSimulation_stream_cases (fs : List Frame) (rerr : Option String) :
    streamSimulation (StreamOutcome.stream fs rerr) = (processFrames fs).1 ∨
    ∃ m, streamSimulation (StreamOutcome.stream fs rerr) =
        (processFrames fs).1 ++ [Event.error m] ∧
      hasTerminal (processFrames fs).1 = false := by
  rw [streamSimulation_split]
  cases hex : (processFrames fs).2 with
  | some m =>
      right
      exact ⟨m, by simp [rawStream, hex],
        (processFrames_shape fs).2.2 (by simp [hex])⟩
  | none =>
      cases hterm : hasTerminal (processFrames fs).1 with
      | true => left; simp [rawStream, hex, hterm]
      | false =>
          cases rerr with
          | none => left; simp [rawStream, hex, hterm]
          | some m2 => right; exact ⟨m2, by simp [rawStream, hex, hterm], rfl⟩

lemma updatePayloads_streamSimulation (fs : List Frame) (rerr : Option String) :
    updatePayloads (streamSimulation (StreamOutcome.stream fs rerr)) =
      updatePayloads (processFrames fs).1 := by
  rcases streamSimulation_stream_cases fs rerr with h | ⟨m, h, _⟩
  · rw [h]
  · rw [h, updatePayloads_append_error]

/-! ## C1 -/

/-- C1: for every streamed response consumed by streamSimulation the
frames are processed in arrival order (the dispatched update payloads
are a prefix, in order, of the update frames received) and the run has
at most one terminal dispatch: onComplete and onError together fire at
most once, and no event of any kind follows a terminal one. -/
theorem C1_stream_terminal_order :
    (∀ o : StreamOutcome,
        countTerminals (streamSimulation o) ≤ 1 ∧
        noEventAfterTerminal (streamSimulation o) = true) ∧
    (∀ (fs : List Frame) (rerr : Option String),
        ∃ rest,
          updatePayloads (streamSimulation (StreamOutcome.stream fs rerr)) ++ rest
            = frameUpdates fs) := by
  constructor
  · intro o
    cases o with
    | netError m =>
        simp [streamSimulation, rawStream, countTerminals, noEventAfterTerminal,
          Event.isTerminal]
    | httpError st =>
        simp [streamSimulation, rawStream, countTerminals, noEventAfterTerminal,
          Event.isTerminal]
    | noBody =>
        simp [streamSimulation, rawStream, countTerminals, noEventAfterTerminal,
          Event.isTerminal]
    | stream fs rerr =>
        have hshape := processFrames_shape fs
        rcases streamSimulation_stream_cases fs rerr with h | ⟨m, h, hterm⟩
        · rw [h]
          exact ⟨hshape.1, hshape.2.1⟩
        · rw [h]
          constructor
          · rw [countTerminals_append, countTerminals_of_not_hasTerminal _ hterm]
            simp [countTerminals, Event.isTerminal]
          · exact noEventAfterTerminal_append_error _ _ hterm
  · intro fs rerr
    rw [updatePayloads_streamSimulation]
    exact processFrames_update_order fs

/-! ## C9 -/

/-- C9: streamSimulation returns normally on every behaviour of the
byte stream, the catch clause turning any escaped exception into a
single trailing onError; each enumerated failure path (network failure,
non-ok HTTP status, unreadable body, read rejection, malformed frame
payload) results in exactly one onError invocation. -/
theorem C9_stream_failures :
    (∀ o : StreamOutcome,
        streamSimulation o =
          (rawStream o).1 ++ ((rawStream o).2.map Event.error).toList) ∧
    (∀ m, streamSimulation (StreamOutcome.netError m) = [Event.error m]) ∧
    (∀ st, streamSimulation (StreamOutcome.httpError st) =
        [Event.error ("Simulation stream failed: " ++ st)]) ∧
    (streamSimulation StreamOutcome.noBody =
        [Event.error "Response body is not readable"]) ∧
    (∀ (fs : List Frame) (m : String), cleanFrames fs = true →
        countErrors (streamSimulation (StreamOutcome.stream fs (some m))) = 1) ∧
    (∀ (pre post : List Frame) (emsg : String) (rerr : Option String),
        cleanFrames pre = true →
        countErrors (streamSimulation
          (StreamOutcome.stream (pre ++ Frame.malformed emsg :: post) rerr)) = 1) := by
  refine ⟨streamSimulation_split, ?_, ?_, ?_, ?_, ?_⟩
  · intro m; simp [streamSimulation, rawStream]
  · intro st; simp [streamSimulation, rawStream]
  · simp [streamSimulation, rawStream]
  · intro fs m h
    have hcl := processFrames_clean fs h
    rw [streamSimulation_split]
    simp only [rawStream, hcl.2.2, hcl.2.1, Option.map_some, Option.toList,
      Bool.false_eq_true, if_false]
    rw [countErrors_append, hcl.1]
    simp [countErrors, Event.isError]
  · intro pre post emsg rerr h
    have hm := processFrames_malformed_at pre post emsg h
    have hcl := processFrames_clean pre h
    rw [streamSimulation_split]
    simp only [rawStream, hm, Option.map_some, Option.toList]
    rw [countErrors_append, hcl.1]
    simp [countErrors, Event.isError]

/-- Witness for C9 at concrete inputs: a clean info frame followed by a
read rejection, a malformed payload after a clean prefix, and a fetch
network failure each produce exactly one onError. -/
theorem C9_stream_failures_witness :
    cleanFrames [Frame.info] = true ∧
    countErrors (streamSimulation
      (StreamOutcome.stream [Frame.info] (some "boom"))) = 1 ∧
    countErrors (streamSimulation
      (StreamOutcome.stream ([Frame.info] ++ Frame.malformed "bad json" :: [])
        none)) = 1 ∧
    streamSimulation (StreamOutcome.netError "Failed to fetch") =
      [Event.error "Failed to fetch"] := by
  refine ⟨by decide, ?_, ?_, ?_⟩
  · exact C9_stream_failures.2.2.2.2.1 [Frame.info] "boom" (by decide)
  · exact C9_stream_failures.2.2.2.2.2 [Frame.info] [] "bad json" none (by decide)
  · exact C9_stream_failures.2.1 "Failed to fetch"

/-! ## C8 -/

/-- Counterexample to C8 as stated: a remote disconnect whose read
rejection carries the message Failed to fetch is reported through
onError and then surfaced by the page handler as an application-level
error banner, because only the two exact abort messages are filtered. -/
theorem C8_disconnect_surfaced_counterexample :
    streamSimulation (StreamOutcome.stream [] (some "Failed to fetch")) =
      [Event.error "Failed to fetch"] ∧
    (onErrorHandler "Failed to fetch" wPage).error =
      some "Simulation error: Failed to fetch" := by
  constructor
  · decide
  · decide

/-- C8 as amended: only the two abort-induced messages are filtered out
and never shown; a remote close that cleanly ends the stream terminates
the loop silently with no onError; any other stream failure message is
surfaced as an application-level error, and the simulating flag always
drops. -/
theorem C8_error_filtering :
    (∀ msg, msg ∈ abortMessages → ∀ st : PageState,
        (onErrorHandler msg st).error = st.error ∧
        (onErrorHandler msg st).isSimulating = false) ∧
    (∀ fs : List Frame, cleanFrames fs = true →
        countErrors (streamSimulation (StreamOutcome.stream fs none)) = 0) ∧
    (∀ msg, msg ∉ abortMessages → ∀ st : PageState,
        (onErrorHandler msg st).error = some ("Simulation error: " ++ msg) ∧
        (onErrorHandler msg st).isSimulating = false) := by
  refine ⟨?_, ?_, ?_⟩
  · intro msg hm st
    simp only [abortMessages, List.mem_cons, List.mem_singleton] at hm
    rcases hm with hm | hm | hm
    · subst hm; simp [onErrorHandler]
    · subst hm; simp [onErrorHandler]
    · simp at hm
  · intro fs h
    have hcl := processFrames_clean fs h
    rw [streamSimulation_split]
    simp only [rawStream, hcl.2.2, hcl.2.1]
    simpa using hcl.1
  · intro msg hm st
    simp only [abortMessages, List.mem_cons, List.mem_singleton] at hm
    push_neg at hm
    simp [onErrorHandler, hm.1, hm.2]

/-- Witness for C8 as amended, at concrete messages and a concrete
page state. -/
theorem C8_error_filtering_witness :
    ("The user aborted a request." ∈ abortMessages ∧
      (onErrorHandler "The user aborted a request." wPage).error = wPage.error ∧
      (onErrorHandler "The user aborted a request." wPage).isSimulating = false) ∧
    (cleanFrames [Frame.info] = true ∧
      countErrors (streamSimulation
        (StreamOutcome.stream [Frame.info] none)) = 0) ∧
    ("Failed to fetch" ∉ abortMessages ∧
      (onErrorHandler "Failed to fetch" wPage).error =
        some ("Simulation error: " ++ "Failed to fetch") ∧
      (onErrorHandler "Failed to fetch" wPage).isSimulating = false) := by
  refine ⟨⟨by decide, ?_⟩, ⟨by decide, ?_⟩, ⟨by decide, ?_⟩⟩
  · exact C8_error_filtering.1 _ (by decide) wPage
  · exact C8_error_filtering.2.1 [Frame.info] (by decide)
  · exact C8_error_filtering.2.2 _ (by decide) wPage

/-! ## C10 -/

/-- C10: at most one run is started from the UI at a time: the
synchronous prefix of handleRunBacktest returns with no state change
whenever loading or isSimulating is set, and otherwise aborts any
previously installed AbortController before installing a fresh one and
raising the loading flag. -/
theorem C10_single_run_guard (st : PageState) :
    ((st.loading = true ∨ st.isSimulating = true) →
      handleRunBacktestStart st = st) ∧
    (st.loading = false → st.isSimulating = false →
      (∀ c, st.abortCtrl = some c → c ∈ (handleRunBacktestStart st).aborted) ∧
      (handleRunBacktestStart st).abortCtrl = some st.nextId ∧
      (handleRunBacktestStart st).loading = true) := by
  constructor
  · intro h
    rcases h with h | h <;> simp [handleRunBacktestStart, h]
  · intro h1 h2
    refine ⟨?_, ?_, ?_⟩
    · intro c hc
      simp [handleRunBacktestStart, h1, h2, hc]
    · simp [handleRunBacktestStart, h1, h2]
    · simp [handleRunBacktestStart, h1, h2]

/-- Witness for C10: a busy page state is left untouched, and from an
idle page state with controller 0 installed the handler aborts that
controller and installs the fresh one. -/
theorem C10_single_run_guard_witness :
    (wPageBusy.loading = true ∨ wPageBusy.isSimulating = true) ∧
    handleRunBacktestStart wPageBusy = wPageBusy ∧
    (wPage.loading = false ∧ wPage.isSimulating = false ∧
      (∀ c, wPage.abortCtrl = some c → c ∈ (handleRunBacktestStart wPage).aborted) ∧
      (handleRunBacktestStart wPage).abortCtrl = some wPage.nextId ∧
      (handleRunBacktestStart wPage).loading = true) := by
  have h := (C10_single_run_guard wPage).2 (by decide) (by decide)
  exact ⟨Or.inl (by decide),
    (C10_single_run_guard wPageBusy).1 (Or.inl (by decide)),
    by decide, by decide, h.1, h.2.1, h.2.2⟩

/-! ## C5 -/

/-- Counterexample to C5 as stated: the repository Rule shape admits a
rule whose condition is threshold while still carrying the crossover
fields ind1 and ind2; this exact value arises in the builder by
switching the default buy rule condition select to threshold, which
reassigns only the condition field. -/
theorem C5_rule_variant_counterexample :
    ruleClosedVariant mixedRule = false := by
  decide

/-- C5 as amended: Rule is a single open record with a string action
tag, a string condition tag among threshold, crossover and crossunder,
and five optional fields; the shape does not exclude fields outside the
chosen variant, while the rules the builder itself seeds do satisfy the
closed-variant discipline. -/
theorem C5_rule_open_record :
    defaultRules.all ruleClosedVariant = true ∧
    ruleClosedVariant (addRuleDefault "buy") = true ∧
    ruleClosedVariant (addRuleDefault "sell") = true ∧
    mixedRule.condition = "threshold" ∧
    mixedRule.ind1 = some "MACD_12_26" ∧
    mixedRule.ind2 = some "MACD_Signal_9" := by
  decide

/-! ## C6 -/

/-- Counterexample to C6 as stated: the batch-API Trade record carries
only date, type and price; it has no shares field and its field set is
not the claimed date, action, price, shares. -/
theorem C6_trade_fields_counterexample :
    "shares" ∉ batchTradeFields ∧ batchTradeFields ≠ claimedTradeFields := by
  decide

/-- C6 as amended: only the streamed per-day trade record carries the
four fields date, type, price and shares (the action field is spelled
type); the batch-API Trade lacks shares and the results-summary trades
carry type_label instead; and a trade emitted by the accountant on an
actual fill carries the fill day date and the close as its price. -/
theorem C6_trade_fields (bar : Bar) (sig : Signal) (p : PState) (tr : SimTrade)
    (h : (applySignal bar sig p).2 = some tr) :
    simTradeFields = ["date", "type", "price", "shares"] ∧
    "shares" ∉ batchTradeFields ∧
    resultsTradeFields = ["date", "type", "price", "type_label"] ∧
    tr.date = bar.date ∧ tr.price = bar.close := by
  refine ⟨rfl, by decide, rfl, ?_⟩
  cases sig with
  | buy =>
      by_cases hs : p.shares = 0
      · simp only [applySignal, hs, if_true, Option.some.injEq] at h
        subst h
        exact ⟨rfl, rfl⟩
      · simp [applySignal, hs] at h
  | sell =>
      by_cases hs : 0 < p.shares
      · simp only [applySignal, hs, if_true, Option.some.injEq] at h
        subst h
        exact ⟨rfl, rfl⟩
      · simp [applySignal, hs] at h
  | hold => simp [applySignal] at h

/-- Witness for C6 as amended: a concrete BUY fill from flat at close
100 with capital 10000 emits the four-field trade record. -/
theorem C6_trade_fields_witness :
    (applySignal wBar Signal.buy (initP 10000)).2 = some wFillTrade ∧
    (simTradeFields = ["date", "type", "price", "shares"] ∧
      "shares" ∉ batchTradeFields ∧
      resultsTradeFields = ["date", "type", "price", "type_label"] ∧
      wFillTrade.date = wBar.date ∧ wFillTrade.price = wBar.close) := by
  have hfill : (applySignal wBar Signal.buy (initP 10000)).2 = some wFillTrade := by
    norm_num [applySignal, initP, wBar, wFillTrade]
  exact ⟨hfill, C6_trade_fields wBar Signal.buy (initP 10000) wFillTrade hfill⟩

/-! ## Lemmas about the engine model -/

lemma stepDay_fields (cfg : RunCfg) (cap0 : ℚ) (t : ℕ) (bar : Bar)
    (p : PState) (tc : ℕ) :
    (stepDay cfg cap0 t bar p tc).2.day = t ∧
    (stepDay cfg cap0 t bar p tc).2.close = bar.close ∧
    (stepDay cfg cap0 t bar p tc).2.capital = (stepDay cfg cap0 t bar p tc).1.capital ∧
    (stepDay cfg cap0 t bar p tc).2.shares = (stepDay cfg cap0 t bar p tc).1.shares ∧
    (stepDay cfg cap0 t bar p tc).2.equity =
      (stepDay cfg cap0 t bar p tc).1.capital +
        (stepDay cfg cap0 t bar p tc).1.shares * bar.close :=
  ⟨rfl, rfl, rfl, rfl, rfl⟩

lemma applySignal_nonneg (bar : Bar) (sig : Signal) (p : PState)
    (hp : 0 ≤ p.capital) (hs : 0 ≤ p.shares) (hc : 0 < bar.close) :
    0 ≤ (applySignal bar sig p).1.capital ∧ 0 ≤ (applySignal bar sig p).1.shares := by
  cases sig with
  | buy =>
      by_cases h : p.shares = 0
      · constructor
        · simp [applySignal, h]
        · simp only [applySignal, h, if_true]
          exact div_nonneg hp hc.le
      · simp only [applySignal, h, if_false]
        exact ⟨hp, hs⟩
  | sell =>
      by_cases h : 0 < p.shares
      · constructor
        · simp only [applySignal, h, if_true]
          exact mul_nonneg hs hc.le
        · simp [applySignal, h]
      · simp only [applySignal, h, if_false]
        exact ⟨hp, hs⟩
  | hold => exact ⟨hp, hs⟩

lemma stepDay_nonneg (cfg : RunCfg) (cap0 : ℚ) (t : ℕ) (bar : Bar)
    (p : PState) (tc : ℕ)
    (hp : 0 ≤ p.capital) (hs : 0 ≤ p.shares) (hc : 0 < bar.close) :
    0 ≤ (stepDay cfg cap0 t bar p tc).1.capital ∧
    0 ≤ (stepDay cfg cap0 t bar p tc).1.shares :=
  applySignal_nonneg bar (daySignal cfg t) p hp hs hc

lemma batchAux_inv (cfg : RunCfg) (cap0 : ℚ) :
    ∀ (bars : List Bar) (t : ℕ) (p : PState) (tc : ℕ),
      0 ≤ p.capital → 0 ≤ p.shares → (∀ b ∈ bars, 0 < b.close) →
      ∀ s ∈ batchAux cfg cap0 bars t p tc,
        s.equity = s.capital + s.shares * s.close ∧ 0 ≤ s.capital := by
  intro bars
  induction bars with
  | nil => intro t p tc _ _ _ s hs; simp [batchAux] at hs
  | cons bar rest ih =>
      intro t p tc hp hsh hc s hs
      have hcb : 0 < bar.close := hc bar (List.mem_cons_self _ _)
      have hstep := stepDay_nonneg cfg cap0 t bar p tc hp hsh hcb
      have hf := stepDay_fields cfg cap0 t bar p tc
      simp only [batchAux, List.mem_cons] at hs
      rcases hs with rfl | hs
      · refine ⟨?_, ?_⟩
        · rw [hf.2.2.2.2, hf.2.2.1, hf.2.2.2.1, hf.2.1]
        · rw [hf.2.2.1]; exact hstep.1
      · exact ih (t + 1) _ _ hstep.1 hstep.2
          (fun b hb => hc b (List.mem_cons_of_mem _ hb)) s hs

lemma streamAux_none_eq (cfg : RunCfg) (cap0 : ℚ) :
    ∀ (bars : List Bar) (t : ℕ) (p : PState) (tc : ℕ)
      (trAcc : List SimTrade) (eqAcc : List ℚ),
      streamAux cfg cap0 none bars t p tc trAcc eqAcc =
        (batchAux cfg cap0 bars t p tc).map SimEvent.update ++
        [SimEvent.complete
          { initialCapital := cap0,
            finalEquity :=
              lastD ((batchAux cfg cap0 bars t p tc).map SimState.equity)
                (headD eqAcc cap0),
            trades := trAcc.reverse ++
              (batchAux cfg cap0 bars t p tc).filterMap SimState.trade,
            equityCurve := eqAcc.reverse ++
              (batchAux cfg cap0 bars t p tc).map SimState.equity,
            daysSimulated := t + (batchAux cfg cap0 bars t p tc).length }] := by
  intro bars
  induction bars with
  | nil =>
      intro t p tc trAcc eqAcc
      simp [streamAux, batchAux, isCancelled, lastD]
  | cons bar rest ih =>
      intro t p tc trAcc eqAcc
      simp only [streamAux, batchAux, isCancelled, List.map_cons,
        List.filterMap_cons, List.length_cons, List.cons_append]
      rw [ih]
      rcases htr : (stepDay cfg cap0 t bar p tc).2.trade with _ | x <;>
        simp [consTrade, htr, lastD, headD, List.reverse_cons,
          List.append_assoc, SimResult.mk.injEq] <;>
        omega

lemma finalResult_updates (states : List SimState) (r : SimResult) :
    finalResult (states.map SimEvent.update ++ [SimEvent.complete r]) = some r := by
  induction states with
  | nil => simp [finalResult]
  | cons s states ih =>
      rw [List.map_cons, List.cons_append]
      simp [finalResult, List.filterMap_cons]

lemma streamAux_cancelled (cfg : RunCfg) (cap0 : ℚ) (k : ℕ) (bars : List Bar)
    (t : ℕ) (p : PState) (tc : ℕ) (trAcc : List SimTrade) (eqAcc : List ℚ)
    (h : k ≤ t) :
    streamAux cfg cap0 (some k) bars t p tc trAcc eqAcc = [] := by
  cases bars <;> simp [streamAux, isCancelled, h]

lemma streamAux_cons_active (cfg : RunCfg) (cap0 : ℚ) (k : ℕ) (bar : Bar)
    (rest : List Bar) (t : ℕ) (p : PState) (tc : ℕ)
    (trAcc : List SimTrade) (eqAcc : List ℚ) (h : ¬ k ≤ t) :
    streamAux cfg cap0 (some k) (bar :: rest) t p tc trAcc eqAcc =
      SimEvent.update (stepDay cfg cap0 t bar p tc).2 ::
        streamAux cfg cap0 (some k) rest (t + 1) (stepDay cfg cap0 t bar p tc).1
          (stepDay cfg cap0 t bar p tc).2.totalTrades
          (consTrade (stepDay cfg cap0 t bar p tc).2.trade trAcc)
          ((stepDay cfg cap0 t bar p tc).2.equity :: eqAcc) := by
  simp [streamAux, isCancelled, h]

lemma streamAux_cancel_inv (cfg : RunCfg) (cap0 : ℚ) (k : ℕ) :
    ∀ (bars : List Bar) (t : ℕ) (p : PState) (tc : ℕ)
      (trAcc : List SimTrade) (eqAcc : List ℚ),
      (∀ s, SimEvent.update s ∈ streamAux cfg cap0 (some k) bars t p tc trAcc eqAcc →
          s.day < k) ∧
      (k ≤ t + bars.length →
        ∀ r, SimEvent.complete r ∉ streamAux cfg cap0 (some k) bars t p tc trAcc eqAcc) := by
  intro bars
  induction bars with
  | nil =>
      intro t p tc trAcc eqAcc
      by_cases hk : k ≤ t
      · rw [streamAux_cancelled cfg cap0 k [] t p tc trAcc eqAcc hk]
        exact ⟨fun s hs => absurd hs (List.not_mem_nil _),
          fun _ r => List.not_mem_nil _⟩
      · constructor
        · intro s hs; simp [streamAux, isCancelled, hk] at hs
        · intro hle r
          simp only [List.length_nil, Nat.add_zero] at hle
          exact absurd hle hk
  | cons bar rest ih =>
      intro t p tc trAcc eqAcc
      by_cases hk : k ≤ t
      · rw [streamAux_cancelled cfg cap0 k (bar :: rest) t p tc trAcc eqAcc hk]
        exact ⟨fun s hs => absurd hs (List.not_mem_nil _),
          fun _ r => List.not_mem_nil _⟩
      · have ht : t < k := Nat.lt_of_not_le hk
        rw [streamAux_cons_active cfg cap0 k bar rest t p tc trAcc eqAcc hk]
        constructor
        · intro s hs
          rcases List.mem_cons.mp hs with hs | hs
          · rw [SimEvent.update.inj hs, (stepDay_fields cfg cap0 t bar p tc).1]
            exact ht
          · exact (ih (t + 1) _ _ _ _).1 s hs
        · intro hle r hmem
          rcases List.mem_cons.mp hmem with h1 | h1
          · exact SimEvent.noConfusion h1
          · refine (ih (t + 1) _ _ _ _).2 ?_ r h1
            simp only [List.length_cons] at hle
            omega

/-! ## C2 -/

/-- C2: spec-modelled engine invariant: on every emitted per-day state,
in batch and in streaming mode, equity equals capital plus position
value at the close (exactly over the rationals, hence within the stated
1e-9 tolerance), and capital is never negative, given a nonnegative
initial capital and positive closes. -/
theorem C2_equity_invariant (cfg : RunCfg) (cap0 : ℚ) (bars : List Bar)
    (h0 : 0 ≤ cap0) (hc : ∀ b ∈ bars, 0 < b.close) :
    (∀ s ∈ (runBatch cfg cap0 bars).2,
        s.equity = s.capital + s.shares * s.close ∧
        |s.equity - (s.capital + s.shares * s.close)| ≤ 1 / 1000000000 ∧
        0 ≤ s.capital) ∧
    (∀ s, SimEvent.update s ∈ streamRun cfg cap0 none bars →
        s.equity = s.capital + s.shares * s.close ∧
        |s.equity - (s.capital + s.shares * s.close)| ≤ 1 / 1000000000 ∧
        0 ≤ s.capital) := by
  have hbatch := batchAux_inv cfg cap0 bars 0 (initP cap0) 0 h0 (le_refl 0) hc
  constructor
  · intro s hs
    have h := hbatch s (by simpa [runBatch] using hs)
    exact ⟨h.1, by rw [h.1, sub_self, abs_zero]; norm_num, h.2⟩
  · intro s hs
    rw [streamRun, streamAux_none_eq] at hs
    simp only [List.mem_append, List.mem_map, List.mem_singleton] at hs
    rcases hs with ⟨a, ha, hae⟩ | hs
    · have h := hbatch a ha
      have hsa : a = s := SimEvent.update.inj hae
      subst hsa
      exact ⟨h.1, by rw [h.1, sub_self, abs_zero]; norm_num, h.2⟩
    · cases hs

/-- Witness for C2 on a one-bar run with no rules. -/
theorem C2_equity_invariant_witness :
    (0 : ℚ) ≤ 10000 ∧ (∀ b ∈ wBars1, 0 < b.close) ∧
    (∀ s ∈ (runBatch wCfg 10000 wBars1).2,
        s.equity = s.capital + s.shares * s.close ∧
        |s.equity - (s.capital + s.shares * s.close)| ≤ 1 / 1000000000 ∧
        0 ≤ s.capital) := by
  have hc : ∀ b ∈ wBars1, 0 < b.close := by decide
  exact ⟨by norm_num, hc,
    (C2_equity_invariant wCfg 10000 wBars1 (by norm_num) hc).1⟩

/-! ## C3 -/

/-- C3: spec-modelled determinism law: on identical input the
streaming run terminates with a complete summary whose trade sequence,
final equity and equity curve are identical to those of the batch run. -/
theorem C3_batch_stream_determinism (cfg : RunCfg) (cap0 : ℚ) (bars : List Bar) :
    ∃ r : SimResult,
      finalResult (streamRun cfg cap0 none bars) = some r ∧
      r.trades = (runBatch cfg cap0 bars).1.trades ∧
      r.finalEquity = (runBatch cfg cap0 bars).1.finalEquity ∧
      r.equityCurve = (runBatch cfg cap0 bars).1.equityCurve := by
  rw [streamRun, streamAux_none_eq]
  refine ⟨_, finalResult_updates _ _, ?_, ?_, ?_⟩
  · simp [runBatch]
  · simp [runBatch, headD]
  · simp [runBatch]

/-! ## C4 -/

/-- C4: spec-modelled cancellation: a streaming run cancelled at bar
boundary k (within the run) emits no update event for any day at or
past k and never emits a complete event. -/
theorem C4_cancellation (cfg : RunCfg) (cap0 : ℚ) (bars : List Bar) (k : ℕ)
    (hk : k ≤ bars.length) :
    (∀ s, SimEvent.update s ∈ streamRun cfg cap0 (some k) bars → s.day < k) ∧
    (∀ r, SimEvent.complete r ∉ streamRun cfg cap0 (some k) bars) := by
  have h := streamAux_cancel_inv cfg cap0 k bars 0 (initP cap0) 0 [] []
  exact ⟨h.1, h.2 (by simpa using hk)⟩

/-- Witness for C4: the scenario of an abort at day 10 of a 60-bar
streaming run. -/
theorem C4_cancellation_witness :
    10 ≤ wBars60.length ∧
    ((∀ s, SimEvent.update s ∈ streamRun wCfg 10000 (some 10) wBars60 →
        s.day < 10) ∧
     (∀ r, SimEvent.complete r ∉ streamRun wCfg 10000 (some 10) wBars60)) := by
  have hk : 10 ≤ wBars60.length := by
    simp [wBars60]
  exact ⟨hk, C4_cancellation wCfg 10000 wBars60 10 hk⟩

/-! ## C7 -/

lemma filter_isEmpty_false_iff (l : List Rule) (p : Rule → Bool) :
    (l.filter p).isEmpty = false ↔ ∃ r ∈ l, p r = true := by
  induction l with
  | nil => simp
  | cons a l ih =>
      cases h : p a with
      | true =>
          rw [List.filter_cons, if_pos h]
          simp only [List.isEmpty_cons]
          constructor
          · intro _; exact ⟨a, List.mem_cons_self _ _, h⟩
          · intro _; trivial
      | false =>
          rw [List.filter_cons, if_neg (by simp [h]), ih]
          constructor
          · rintro ⟨r, hr, hpr⟩; exact ⟨r, List.mem_cons_of_mem _ hr, hpr⟩
          · rintro ⟨r, hr, hpr⟩
            rcases List.mem_cons.mp hr with rfl | hr
            · rw [h] at hpr; cases hpr
            · exact ⟨r, hr, hpr⟩

lemma evalSignal_group_iff (rules : List Rule) (ind : Ind) (t : ℕ) (ty : String) :
    (((rules.filter fun r => ruleSatisfied ind t r).filter
        fun r => r.type == ty).isEmpty = false) ↔
      ∃ r ∈ rules, r.type = ty ∧ ruleSatisfied ind t r = true := by
  rw [List.filter_filter, filter_isEmpty_false_iff]
  constructor
  · rintro ⟨r, hr, hpr⟩
    rw [Bool.and_eq_true] at hpr
    exact ⟨r, hr, by simpa using hpr.1, hpr.2⟩
  · rintro ⟨r, hr, hty, hsat⟩
    exact ⟨r, hr, by rw [Bool.and_eq_true]; exact ⟨by simpa using hty, hsat⟩⟩

/-- C7: spec-modelled decision policy of the RuleEvaluator: whenever a
satisfied SELL rule exists the signal is SELL; otherwise a satisfied
BUY rule gives BUY; otherwise the signal is HOLD. -/
theorem C7_sell_priority (rules : List Rule) (ind : Ind) (t : ℕ) :
    ((∃ r ∈ rules, r.type = "sell" ∧ ruleSatisfied ind t r = true) →
      evalSignal rules ind t = Signal.sell) ∧
    ((¬ ∃ r ∈ rules, r.type = "sell" ∧ ruleSatisfied ind t r = true) →
      (∃ r ∈ rules, r.type = "buy" ∧ ruleSatisfied ind t r = true) →
      evalSignal rules ind t = Signal.buy) ∧
    ((¬ ∃ r ∈ rules, r.type = "sell" ∧ ruleSatisfied ind t r = true) →
      (¬ ∃ r ∈ rules, r.type = "buy" ∧ ruleSatisfied ind t r = true) →
      evalSignal rules ind t = Signal.hold) := by
  have hSell := evalSignal_group_iff rules ind t "sell"
  have hBuy := evalSignal_group_iff rules ind t "buy"
  refine ⟨?_, ?_, ?_⟩
  · intro hex
    have h := hSell.mpr hex
    simp only [evalSignal]
    rw [h]
    simp
  · intro hnex hex
    have h1 : ((rules.filter fun r => ruleSatisfied ind t r).filter
        fun r => r.type == "sell").isEmpty = true := by
      cases h2 : ((rules.filter fun r => ruleSatisfied ind t r).filter
          fun r => r.type == "sell").isEmpty with
      | false => exact absurd (hSell.mp h2) hnex
      | true => rfl
    have h2 := hBuy.mpr hex
    simp only [evalSignal]
    rw [h1, h2]
    simp
  · intro hnsell hnbuy
    have h1 : ((rules.filter fun r => ruleSatisfied ind t r).filter
        fun r => r.type == "sell").isEmpty = true := by
      cases h2 : ((rules.filter fun r => ruleSatisfied ind t r).filter
          fun r => r.type == "sell").isEmpty with
      | false => exact absurd (hSell.mp h2) hnsell
      | true => rfl
    have h2 : ((rules.filter fun r => ruleSatisfied ind t r).filter
        fun r => r.type == "buy").isEmpty = true := by
      cases h3 : ((rules.filter fun r => ruleSatisfied ind t r).filter
          fun r => r.type == "buy").isEmpty with
      | false => exact absurd (hBuy.mp h3) hnbuy
      | true => rfl
    simp only [evalSignal]
    rw [h1, h2]
    simp

/-- Witness for C7: with the default RSI-below-30 threshold rules and
an indicator snapshot at 20, a day on which both a buy rule and a sell
rule fire signals SELL; with only the buy rule it signals BUY; with no
rules it signals HOLD. -/
theorem C7_sell_priority_witness :
    ((∃ r ∈ wRules2, r.type = "sell" ∧ ruleSatisfied wInd 0 r = true) ∧
      evalSignal wRules2 wInd 0 = Signal.sell) ∧
    ((¬ ∃ r ∈ wRules1, r.type = "sell" ∧ ruleSatisfied wInd 0 r = true) ∧
      (∃ r ∈ wRules1, r.type = "buy" ∧ ruleSatisfied wInd 0 r = true) ∧
      evalSignal wRules1 wInd 0 = Signal.buy) ∧
    ((¬ ∃ r ∈ ([] : List Rule), r.type = "sell" ∧ ruleSatisfied wInd 0 r = true) ∧
      (¬ ∃ r ∈ ([] : List Rule), r.type = "buy" ∧ ruleSatisfied wInd 0 r = true) ∧
      evalSignal ([] : List Rule) wInd 0 = Signal.hold) := by
  refine ⟨⟨?_, ?_⟩, ⟨?_, ?_, ?_⟩, ⟨?_, ?_, ?_⟩⟩
  · decide
  · exact (C7_sell_priority wRules2 wInd 0).1 (by decide)
  · decide
  · decide
  · exact (C7_sell_priority wRules1 wInd 0).2.1 (by decide) (by decide)
  · decide
  · decide
  · exact (C7_sell_priority ([] : List Rule) wInd 0).2.2 (by decide) (by decide)

end StressLab
